import Mathlib

/-!
Shallow embedding of `src/Complaints Analysis/Oos.py` (complaints dashboard).

The script loads a spreadsheet sheet, derives columns (reporter extracted
from the ticket subject by the regex `reported by (.+)$`, parsed report
timestamps with unparsable rows dropped, category normalized to
"Undefined"), filters rows by an inclusive date range and a category
selection, aggregates per-category counts / percentages / reporter counts,
and exports a two-sheet file.

Modelling choices:
  * a date is a `Nat` (ordinal day); a timestamp is a date plus an hour;
  * the result of `pd.to_datetime(..., errors='coerce')` on the raw
    `Report_Time` cell is modelled as an `Option DateTime` field of the raw
    row (`none` models `NaT`, i.e. an unparsable timestamp);
  * floating point percentages are modelled over `ℚ`, with rounding to one
    decimal place via `round` (round half away from zero upward); the
    claims proved about percentages are tolerance bounds or definitional
    equalities that do not depend on tie-breaking behaviour;
  * the Python regex search `re.search(r'reported by (.+)$', s)` is
    embedded directly: the leftmost position where the literal
    `"reported by "` occurs followed by a non-empty run of non-newline
    characters extending to the end of the string (or to a single final
    newline, which `$` also accepts); the capture group is that run.
-/

/-- The literal part of the regex pattern, `"reported by "`. -/
def reportedByLit : List Char := "reported by ".data

/-- `litStarts p l`: the char list `p` is a prefix of `l` (Python's literal
part of the regex matching at the current position). -/
def litStarts : List Char → List Char → Bool
  | [], _ => true
  | _ :: _, [] => false
  | p :: ps, c :: cs => p == c && litStarts ps cs

/-- Python whitespace for `str.strip()` (ASCII fragment). -/
def pyIsSpace (c : Char) : Bool :=
  c == ' ' || c == '\t' || c == '\n' || c == '\r' || c == '\x0b' || c == '\x0c'

/-- Python `str.strip()`: remove leading and trailing whitespace. -/
def pyStrip (s : String) : String :=
  ⟨((s.data.dropWhile pyIsSpace).reverse.dropWhile pyIsSpace).reverse⟩

/-- Drop a single trailing newline, if present: the part of the tail that a
greedy `.+$` (no DOTALL, no MULTILINE) can capture lives in this core. -/
def coreTail (l : List Char) : List Char :=
  match l.reverse with
  | [] => []
  | c :: rest => if c = '\n' then rest.reverse else l

/-- No newline occurs in the char list. -/
def noNewline (l : List Char) : Bool := l.all (fun c => c != '\n')

/-- Whether `(.+)$` matches the text `tail` that follows the literal: the
tail, minus an optional single final newline, must be non-empty and contain
no newline.  The capture group is then `coreTail tail`. -/
def tailMatches (tail : List Char) : Bool :=
  !(coreTail tail).isEmpty && noNewline (coreTail tail)

/-- `re.search(r'reported by (.+)$', s)`: scan positions left to right; at
the first position where the full pattern matches, return capture group 1. -/
def reSearch : List Char → Option (List Char)
  | [] => none
  | c :: cs =>
    if litStarts reportedByLit (c :: cs) && tailMatches ((c :: cs).drop 12) then
      some (coreTail ((c :: cs).drop 12))
    else
      reSearch cs

/-- `extract_reporter` from `load_data` in Oos.py: `pd.isna(subject)` is
modelled by `none`; otherwise regex search, `.group(1).strip()` on a match,
`"Unknown"` otherwise. -/
def extract_reporter (subject : Option String) : String :=
  match subject with
  | none => "Unknown"
  | some s =>
    match reSearch s.data with
    | some g => pyStrip ⟨g⟩
    | none => "Unknown"

/-- The remainder of the text after the first occurrence of the literal
substring `"reported by "`, when the substring occurs at all (plain
substring search, independent of the regex). -/
def remainderAfterLit : List Char → Option (List Char)
  | [] => none
  | c :: cs =>
    if litStarts reportedByLit (c :: cs) then some ((c :: cs).drop 12)
    else remainderAfterLit cs

/-- The subject contains the literal substring `"reported by "`. -/
def hasLit (s : String) : Bool := (remainderAfterLit s.data).isSome

example : extract_reporter (some "Issue X reported by Jane Doe") = "Jane Doe" := by decide
example : extract_reporter (some "no match here") = "Unknown" := by decide
example : extract_reporter none = "Unknown" := by decide
example : extract_reporter (some "Issue reported by ") = "Unknown" := by decide
example : extract_reporter (some "Spill reported by   ") = "" := by decide
example : extract_reporter (some "x reported by a\nb") = "Unknown" := by decide
example : extract_reporter (some "x reported by Jane\n") = "Jane" := by decide

/-! ## Data model -/

/-- A parsed report timestamp: `date` is an ordinal day number (the value of
`dt.date`, with the usual total order), `hour` the value of `dt.hour`. -/
structure DateTime where
  date : Nat
  hour : Nat
deriving DecidableEq, Repr

/-- A raw row of the "Internal Requests" sheet after column renaming.
`reportTime` is the result of `pd.to_datetime(raw cell, errors='coerce')`:
`none` models `NaT`, i.e. an unparsable report timestamp.  `mainCategory`
and `ticketSubject` are `none` when the cell is missing (NaN). -/
structure RawRow where
  mainCategory : Option String
  product : String
  reportTime : Option DateTime
  facility : String
  picker : String
  ticketSubject : Option String
deriving DecidableEq, Repr

/-- A loaded row after `load_data`: unparsable timestamps are gone and the
derived columns (`Reporter`, `Day`, `Hour`, `Date`) are present. -/
structure Row where
  mainCategory : String
  product : String
  reportTime : DateTime
  facility : String
  picker : String
  reporter : String
  day : String
  hour : Nat
  date : Nat
deriving DecidableEq, Repr

/-- `dt.day_name()` as a function of the ordinal day. -/
def dayName (d : Nat) : String :=
  ["Monday", "Tuesday", "Wednesday", "Thursday", "Friday", "Saturday",
   "Sunday"].getD (d % 7) "Monday"

/-- Category normalization in `load_data`:
`fillna('Undefined')` followed by `replace('', 'Undefined')`. -/
def normCategory : Option String → String
  | none => "Undefined"
  | some c => if c = "" then "Undefined" else c

/-- `load_data` from Oos.py: extract the reporter from the ticket subject,
drop rows whose report timestamp did not parse (`dropna` on `Report_Time`),
derive day / hour / date, and normalize the category. -/
def load_data (raws : List RawRow) : List Row :=
  raws.filterMap (fun w =>
    match w.reportTime with
    | none => none
    | some t =>
      some { mainCategory := normCategory w.mainCategory
             product := w.product
             reportTime := t
             facility := w.facility
             picker := w.picker
             reporter := extract_reporter w.ticketSubject
             day := dayName t.date
             hour := t.hour
             date := t.date })

/-- The filter step of Oos.py:
`df[(df['Date'] >= lo) & (df['Date'] <= hi) & (df['Main_Category'].isin(cats))]`. -/
def filtered_df (rows : List Row) (lo hi : Nat) (cats : List String) : List Row :=
  rows.filter (fun r => decide (lo ≤ r.date) && decide (r.date ≤ hi) &&
    cats.contains r.mainCategory)

/-! ## Aggregation -/

/-- Rounding to one decimal place: `Series.round(1)` modelled over `ℚ`. -/
def round1 (q : ℚ) : ℚ := (round (10 * q) : ℤ) / 10

/-- `value_counts().to_dict()` on the `Reporter` column of a group: a
mapping from each distinct reporter to its number of rows. -/
def reporterCounts (rows : List Row) : List (String × Nat) :=
  ((rows.map (·.reporter)).dedup).map
    (fun p => (p, (rows.map (·.reporter)).count p))

/-- One row of `category_report`. -/
structure CatEntry where
  category : String
  reportCount : Nat
  reporters : List (String × Nat)
  percentage : ℚ
deriving DecidableEq, Repr

/-- The aggregation entry of one category `c` of `rows`: row count,
reporter counts, and `(Report_Count / total_reports * 100).round(1)` where
`total_reports` is the number of rows being aggregated. -/
def mkCatEntry (rows : List Row) (c : String) : CatEntry :=
  { category := c
    reportCount := (rows.filter (fun r => r.mainCategory == c)).length
    reporters := reporterCounts (rows.filter (fun r => r.mainCategory == c))
    percentage := round1
      (((rows.filter (fun r => r.mainCategory == c)).length : ℚ) /
        (rows.length : ℚ) * 100) }

/-- `category_report` from Oos.py: group the filtered rows by
`Main_Category` and aggregate each group. -/
def category_report (rows : List Row) : List CatEntry :=
  ((rows.map (·.mainCategory)).dedup).map (mkCatEntry rows)

/-! ## Export -/

/-- A row of the detailed sheet written by the exporter: the column
selection `['Date', 'Report_Time', 'Main_Category', 'Product', 'Reporter',
'Facility']` of a filtered row. -/
structure DetailRow where
  date : Nat
  reportTime : DateTime
  mainCategory : String
  product : String
  reporter : String
  facility : String
deriving DecidableEq, Repr

/-- The detailed dataframe handed to the exporter. -/
def detailedRows (rows : List Row) : List DetailRow :=
  rows.map (fun r =>
    { date := r.date, reportTime := r.reportTime,
      mainCategory := r.mainCategory, product := r.product,
      reporter := r.reporter, facility := r.facility })

/-- The cells of one detail row as written to the sheet. -/
def detailCells (d : DetailRow) : List String :=
  [toString d.date, toString d.reportTime.date ++ ":" ++ toString d.reportTime.hour,
   d.mainCategory, d.product, d.reporter, d.facility]

/-- The header row of the "Detailed Complaints" sheet
(`to_excel` with `index=False` writes the column names first). -/
def detailHeader : List String :=
  ["Date", "Report_Time", "Main_Category", "Product", "Reporter", "Facility"]

/-- `to_excel` for the detailed dataframe: the "Detailed Complaints" sheet
as a list of cell rows, one header row then one row per record. -/
def detailedSheet (rows : List Row) : List (List String) :=
  detailHeader :: (detailedRows rows).map detailCells

/-- Re-reading a sheet with `pd.read_excel`: the first row is consumed as
the header, the rest are the data rows. -/
def readSheetRows (sheet : List (List String)) : List (List String) :=
  sheet.drop 1

/-! ## Sample data for witnesses -/

/-- A small concrete upload used to instantiate the theorems. -/
def sampleRaws : List RawRow :=
  [ { mainCategory := some "Fruit", product := "Apples",
      reportTime := some ⟨3, 9⟩, facility := "FC1", picker := "P1",
      ticketSubject := some "Issue X reported by Jane Doe" },
    { mainCategory := none, product := "Bread",
      reportTime := some ⟨4, 10⟩, facility := "FC1", picker := "P2",
      ticketSubject := some "late delivery" },
    { mainCategory := some "Fruit", product := "Pears",
      reportTime := none, facility := "FC2", picker := "P3",
      ticketSubject := some "Issue Y reported by Bob" },
    { mainCategory := some "", product := "Milk",
      reportTime := some ⟨5, 11⟩, facility := "FC2", picker := "P4",
      ticketSubject := none } ]

/-- The loaded row arising from the first sample raw row. -/
def rowJane : Row :=
  { mainCategory := "Fruit", product := "Apples", reportTime := ⟨3, 9⟩,
    facility := "FC1", picker := "P1", reporter := "Jane Doe",
    day := dayName 3, hour := 9, date := 3 }

example : rowJane ∈ load_data sampleRaws := by decide

/-! ## Theorems -/

/-- C4: the filter step returns exactly the rows whose date lies in the
inclusive range and whose category is among the selected ones; rows failing
either predicate are excluded, and the survivors are the original rows in
their original order (a sublist, so no row is altered). -/
theorem C4_filter_exact (rows : List Row) (lo hi : Nat) (cats : List String) :
    (∀ r : Row, r ∈ filtered_df rows lo hi cats ↔
      r ∈ rows ∧ (lo ≤ r.date ∧ r.date ≤ hi) ∧ r.mainCategory ∈ cats) ∧
    List.Sublist (filtered_df rows lo hi cats) rows := by
  refine ⟨fun r => ?_, List.filter_sublist rows⟩
  simp [filtered_df, List.mem_filter, and_assoc]

/-- C4 witness: at the sample table, a concrete row that satisfies both
predicates is in the filter's output. -/
theorem C4_filter_exact_witness :
    rowJane ∈ filtered_df (load_data sampleRaws) 0 4 ["Fruit"] :=
  ((C4_filter_exact (load_data sampleRaws) 0 4 ["Fruit"]).1 rowJane).mpr
    (by decide)

/-- C5: a date range matching no rows yields an empty filtered set, a zero
total, and an empty category summary, and every step is total (no error:
in particular `category_report` of the empty set is the empty summary). -/
theorem C5_empty_range (rows : List Row) (lo hi : Nat) (cats : List String)
    (h : ∀ r ∈ rows, ¬ (lo ≤ r.date ∧ r.date ≤ hi)) :
    filtered_df rows lo hi cats = [] ∧
    (filtered_df rows lo hi cats).length = 0 ∧
    category_report (filtered_df rows lo hi cats) = [] := by
  have he : filtered_df rows lo hi cats = [] := by
    apply List.filter_eq_nil_iff.mpr
    intro r hr hand
    rw [Bool.and_eq_true, Bool.and_eq_true] at hand
    exact h r hr ⟨of_decide_eq_true hand.1.1, of_decide_eq_true hand.1.2⟩
  exact ⟨he, by rw [he]; rfl, by rw [he]; rfl⟩

/-- C5 witness: the sample table has dates 3..5, so the range 10..20
matches no row and everything is empty. -/
theorem C5_empty_range_witness :
    filtered_df (load_data sampleRaws) 10 20 ["Fruit", "Undefined"] = [] ∧
    (filtered_df (load_data sampleRaws) 10 20 ["Fruit", "Undefined"]).length = 0 ∧
    category_report (filtered_df (load_data sampleRaws) 10 20 ["Fruit", "Undefined"]) = [] :=
  C5_empty_range (load_data sampleRaws) 10 20 ["Fruit", "Undefined"] (by decide)

/-- C9: exporting the filtered set and re-reading the "Detailed
Complaints" sheet yields exactly as many data rows as the filtered input:
the exporter writes one header row plus one row per record, and reading
consumes the header. -/
theorem C9_roundtrip (rows : List Row) (lo hi : Nat) (cats : List String) :
    (readSheetRows (detailedSheet (filtered_df rows lo hi cats))).length =
      (filtered_df rows lo hi cats).length := by
  simp [readSheetRows, detailedSheet, detailedRows]

/-- C6: the loader maps each retained row's category through
`normCategory`; missing and empty categories become "Undefined", all other
values are kept unchanged. -/
theorem C6_category_normalized (raws : List RawRow) :
    ((load_data raws).map (·.mainCategory) =
      (raws.filter (fun w => w.reportTime.isSome)).map
        (fun w => normCategory w.mainCategory)) ∧
    normCategory none = "Undefined" ∧
    normCategory (some "") = "Undefined" ∧
    (∀ c : String, c ≠ "" → normCategory (some c) = c) := by
  refine ⟨?_, rfl, rfl, fun c hc => by simp [normCategory, hc]⟩
  induction raws with
  | nil => rfl
  | cons w ws ih =>
    cases hw : w.reportTime with
    | none => simpa [load_data, List.filterMap_cons, List.filter_cons, hw]
        using ih
    | some t => simpa [load_data, List.filterMap_cons, List.filter_cons, hw]
        using ih

/-- C6 witness: on the sample upload the categories come out normalized,
and a concrete non-empty category is untouched. -/
theorem C6_category_normalized_witness :
    (load_data sampleRaws).map (·.mainCategory) =
      ["Fruit", "Undefined", "Undefined"] ∧
    normCategory (some "Fruit") = "Fruit" := by
  refine ⟨?_, (C6_category_normalized sampleRaws).2.2.2 "Fruit" (by decide)⟩
  rw [(C6_category_normalized sampleRaws).1]
  decide

/-- Counting the rows on which a projection hits `c` is counting `c` in the
projected list. -/
lemma length_filter_eq_count_map (rows : List Row) (f : Row → String)
    (c : String) :
    (rows.filter (fun r => f r == c)).length = (rows.map f).count c := by
  rw [List.count_eq_countP, List.countP_map, List.countP_eq_length_filter]
  rfl

/-- The reporter counts of a group of rows sum to the size of the group. -/
lemma sum_reporterCounts (rows : List Row) :
    ((reporterCounts rows).map (·.2)).sum = rows.length := by
  unfold reporterCounts
  rw [List.map_map]
  have h := List.sum_map_count_dedup_eq_length (rows.map (·.reporter))
  simpa [Function.comp] using h

/-- C7: for every filtered set and every entry of its aggregation, the
per-reporter counts in that entry's reporter mapping sum to the entry's
`Report_Count`. -/
theorem C7_reporter_counts_sum (rows : List Row) (lo hi : Nat)
    (cats : List String) (e : CatEntry)
    (he : e ∈ category_report (filtered_df rows lo hi cats)) :
    (e.reporters.map (·.2)).sum = e.reportCount := by
  unfold category_report at he
  rw [List.mem_map] at he
  obtain ⟨c, _, rfl⟩ := he
  exact sum_reporterCounts _

/-- C7 witness: the "Undefined" aggregation entry of the sample table has
reporter counts summing to its report count. -/
theorem C7_reporter_counts_sum_witness :
    ((mkCatEntry (filtered_df (load_data sampleRaws) 0 9 ["Fruit", "Undefined"])
        "Undefined").reporters.map (·.2)).sum =
    (mkCatEntry (filtered_df (load_data sampleRaws) 0 9 ["Fruit", "Undefined"])
        "Undefined").reportCount :=
  C7_reporter_counts_sum (load_data sampleRaws) 0 9 ["Fruit", "Undefined"] _
    (List.mem_map_of_mem _ (by decide))

/-- The loader retains exactly as many rows as raw rows with a parsed
timestamp. -/
lemma load_data_length (raws : List RawRow) :
    (load_data raws).length =
      (raws.filter (fun w => w.reportTime.isSome)).length := by
  induction raws with
  | nil => rfl
  | cons w ws ih =>
    cases hw : w.reportTime with
    | none => simpa [load_data, List.filterMap_cons, List.filter_cons, hw]
        using ih
    | some t => simpa [load_data, List.filterMap_cons, List.filter_cons, hw]
        using ih

/-- C8: the loader keeps exactly the raw rows whose timestamp parsed
(`none` models an unparsable timestamp): the loaded length counts the
parsable rows, prepending an unparsable row changes nothing, and every
loaded, filtered, or exported record carries the successfully parsed
timestamp of some raw row. -/
theorem C8_timestamp_invariant (raws : List RawRow) (lo hi : Nat)
    (cats : List String) :
    ((load_data raws).length =
      (raws.filter (fun w => w.reportTime.isSome)).length) ∧
    (∀ w : RawRow, w.reportTime = none →
      load_data (w :: raws) = load_data raws) ∧
    (∀ r ∈ load_data raws, ∃ w ∈ raws, w.reportTime = some r.reportTime) ∧
    (∀ r ∈ filtered_df (load_data raws) lo hi cats,
      ∃ w ∈ raws, w.reportTime = some r.reportTime) ∧
    (∀ d ∈ detailedRows (filtered_df (load_data raws) lo hi cats),
      ∃ w ∈ raws, w.reportTime = some d.reportTime) := by
  have hmem : ∀ r ∈ load_data raws, ∃ w ∈ raws, w.reportTime = some r.reportTime := by
    intro r hr
    rw [load_data, List.mem_filterMap] at hr
    obtain ⟨w, hw, hfw⟩ := hr
    refine ⟨w, hw, ?_⟩
    cases hwt : w.reportTime with
    | none => rw [hwt] at hfw; exact absurd hfw (by simp)
    | some t =>
      rw [hwt] at hfw
      simp only [Option.some.injEq] at hfw
      rw [← hfw]
  refine ⟨load_data_length raws, ?_, hmem, ?_, ?_⟩
  · intro w hw
    simp [load_data, List.filterMap_cons, hw]
  · intro r hr
    exact hmem r (List.mem_of_mem_filter hr)
  · intro d hd
    rw [detailedRows, List.mem_map] at hd
    obtain ⟨r, hr, rfl⟩ := hd
    exact hmem r (List.mem_of_mem_filter hr)

/-- Rounding to one decimal place moves a rational by at most `1/20`. -/
lemma abs_round1_sub (q : ℚ) : |round1 q - q| ≤ 1 / 20 := by
  have h3 : |10 * q - ((round (10 * q) : ℤ) : ℚ)| ≤ 1 / 2 := abs_sub_round (10 * q)
  have h2 : round1 q - q = -((10 * q - ((round (10 * q) : ℤ) : ℚ)) / 10) := by
    rw [round1]; ring
  rw [h2, abs_neg, abs_div]
  have h10 : |(10 : ℚ)| = 10 := by norm_num
  rw [h10]
  linarith

/-- Rounding each element of a list of rationals to one decimal place moves
the sum by at most `1/20` per element. -/
lemma list_sum_round1 (l : List ℚ) :
    |(l.map round1).sum - l.sum| ≤ (l.length : ℚ) * (1 / 20) := by
  induction l with
  | nil => simp
  | cons q qs ih =>
    have h1 : |round1 q - q| ≤ 1 / 20 := abs_round1_sub q
    simp only [List.map_cons, List.sum_cons, List.length_cons]
    have h2 : round1 q + (qs.map round1).sum - (q + qs.sum)
        = (round1 q - q) + ((qs.map round1).sum - qs.sum) := by ring
    rw [h2]
    calc |(round1 q - q) + ((qs.map round1).sum - qs.sum)|
        ≤ |round1 q - q| + |(qs.map round1).sum - qs.sum| := abs_add _ _
      _ ≤ 1 / 20 + (qs.length : ℚ) * (1 / 20) := add_le_add h1 ih
      _ = ((qs.length + 1 : ℕ) : ℚ) * (1 / 20) := by push_cast; ring

/-- The per-category row counts over the distinct categories of a table
partition it: they sum to the table's length. -/
lemma sum_catcounts (rows : List Row) :
    (((rows.map (·.mainCategory)).dedup).map
      (fun c => (rows.filter (fun r => r.mainCategory == c)).length)).sum
      = rows.length := by
  have h1 : ∀ c ∈ (rows.map (·.mainCategory)).dedup,
      (rows.filter (fun r => r.mainCategory == c)).length
        = (rows.map (·.mainCategory)).count c :=
    fun c _ => length_filter_eq_count_map rows _ c
  rw [List.map_congr_left h1, List.sum_map_count_dedup_eq_length,
    List.length_map]

/-- C2: over a non-empty filtered set, the per-category percentages
(each individually rounded to one decimal place) sum to 100 within
rounding tolerance: the distance from 100 is at most `1/20` per category
of the summary. -/
theorem C2_percentages_sum (rows : List Row) (lo hi : Nat)
    (cats : List String) (h : filtered_df rows lo hi cats ≠ []) :
    |((category_report (filtered_df rows lo hi cats)).map (·.percentage)).sum
        - 100| ≤
      ((category_report (filtered_df rows lo hi cats)).length : ℚ) / 20 := by
  set f := filtered_df rows lo hi cats with hf
  have hlen0 : f.length ≠ 0 := fun hz => h (List.length_eq_zero.mp hz)
  have hn : (f.length : ℚ) ≠ 0 := Nat.cast_ne_zero.mpr hlen0
  have hmap : (category_report f).map (·.percentage) =
      (((f.map (·.mainCategory)).dedup).map
        (fun c => ((f.filter (fun r => r.mainCategory == c)).length : ℚ) /
          (f.length : ℚ) * 100)).map round1 := by
    rw [category_report, List.map_map, List.map_map]
    rfl
  have hsum : ((((f.map (·.mainCategory)).dedup).map
      (fun c => ((f.filter (fun r => r.mainCategory == c)).length : ℚ) /
        (f.length : ℚ) * 100))).sum = 100 := by
    have h1 : ∀ c ∈ (f.map (·.mainCategory)).dedup,
        ((f.filter (fun r => r.mainCategory == c)).length : ℚ) /
          (f.length : ℚ) * 100
        = ((f.filter (fun r => r.mainCategory == c)).length : ℚ) *
            (100 / (f.length : ℚ)) := by
      intro c _; ring
    rw [List.map_congr_left h1, List.sum_map_mul_right]
    have h2 : ((f.map (·.mainCategory)).dedup).map
        (fun c => ((f.filter (fun r => r.mainCategory == c)).length : ℚ))
        = (((f.map (·.mainCategory)).dedup).map
            (fun c => (f.filter (fun r => r.mainCategory == c)).length)).map
          ((↑) : ℕ → ℚ) := by
      rw [List.map_map]
      rfl
    rw [h2, ← Nat.cast_list_sum, sum_catcounts]
    field_simp
  have hlen : (category_report f).length =
      ((((f.map (·.mainCategory)).dedup).map
        (fun c => ((f.filter (fun r => r.mainCategory == c)).length : ℚ) /
          (f.length : ℚ) * 100))).length := by
    rw [category_report, List.length_map, List.length_map]
  rw [hmap, hlen]
  have hb := list_sum_round1 (((f.map (·.mainCategory)).dedup).map
      (fun c => ((f.filter (fun r => r.mainCategory == c)).length : ℚ) /
        (f.length : ℚ) * 100))
  rw [hsum] at hb
  calc |((((f.map (·.mainCategory)).dedup).map
        (fun c => ((f.filter (fun r => r.mainCategory == c)).length : ℚ) /
          (f.length : ℚ) * 100)).map round1).sum - 100|
      ≤ (((((f.map (·.mainCategory)).dedup).map
          (fun c => ((f.filter (fun r => r.mainCategory == c)).length : ℚ) /
            (f.length : ℚ) * 100))).length : ℚ) * (1 / 20) := hb
    _ = (((((f.map (·.mainCategory)).dedup).map
          (fun c => ((f.filter (fun r => r.mainCategory == c)).length : ℚ) /
            (f.length : ℚ) * 100))).length : ℚ) / 20 := by ring

/-- C2 witness: the sample filtered set is non-empty and its percentage
sum is within tolerance of 100. -/
theorem C2_percentages_sum_witness :
    filtered_df (load_data sampleRaws) 0 9 ["Fruit", "Undefined"] ≠ [] ∧
    |((category_report
        (filtered_df (load_data sampleRaws) 0 9 ["Fruit", "Undefined"])).map
        (·.percentage)).sum - 100| ≤
      ((category_report
        (filtered_df (load_data sampleRaws) 0 9 ["Fruit", "Undefined"])).length
        : ℚ) / 20 :=
  ⟨by decide,
   C2_percentages_sum (load_data sampleRaws) 0 9 ["Fruit", "Undefined"]
     (by decide)⟩

/-- C3: every aggregation entry of a filtered set has its `Report_Count`
equal to the number of filtered rows of its category, and its percentage
equal to that count divided by the number of filtered rows — not the
unfiltered total — times 100, rounded to one decimal place. -/
theorem C3_percentage_of_filtered_total (rows : List Row) (lo hi : Nat)
    (cats : List String) (e : CatEntry)
    (he : e ∈ category_report (filtered_df rows lo hi cats)) :
    e.reportCount = ((filtered_df rows lo hi cats).filter
        (fun r => r.mainCategory == e.category)).length ∧
    e.percentage = round1 ((e.reportCount : ℚ) /
        ((filtered_df rows lo hi cats).length : ℚ) * 100) := by
  rw [category_report, List.mem_map] at he
  obtain ⟨c, _, rfl⟩ := he
  exact ⟨rfl, rfl⟩

/-- C3 witness: the "Fruit" entry of the sample aggregation has its
percentage computed from its count over the filtered total. -/
theorem C3_percentage_of_filtered_total_witness :
    (mkCatEntry (filtered_df (load_data sampleRaws) 0 9 ["Fruit", "Undefined"])
        "Fruit").percentage =
      round1 (((mkCatEntry
          (filtered_df (load_data sampleRaws) 0 9 ["Fruit", "Undefined"])
          "Fruit").reportCount : ℚ) /
        ((filtered_df (load_data sampleRaws) 0 9 ["Fruit", "Undefined"]).length
          : ℚ) * 100) :=
  (C3_percentage_of_filtered_total (load_data sampleRaws) 0 9
    ["Fruit", "Undefined"] _ (List.mem_map_of_mem _ (by decide))).2

/-- A literal can only start a match on a list at least as long. -/
lemma litStarts_length_le :
    ∀ {p l : List Char}, litStarts p l = true → p.length ≤ l.length := by
  intro p
  induction p with
  | nil => intro l _; simp
  | cons a ps ih =>
    intro l h
    cases l with
    | nil => simp [litStarts] at h
    | cons c cs =>
      rw [litStarts, Bool.and_eq_true] at h
      have := ih h.2
      simp only [List.length_cons]
      omega

/-- The regex cannot match inside a string shorter than its literal part. -/
lemma reSearch_none_short : ∀ {l : List Char}, l.length < 12 → reSearch l = none := by
  intro l
  induction l with
  | nil => intro _; rfl
  | cons c cs ih =>
    intro h
    have hf : litStarts reportedByLit (c :: cs) = false := by
      cases hx : litStarts reportedByLit (c :: cs) with
      | false => rfl
      | true =>
        have h12 := litStarts_length_le hx
        have : reportedByLit.length = 12 := by decide
        rw [this] at h12
        simp only [List.length_cons] at h h12
        omega
    rw [reSearch, hf]
    simp only [Bool.false_and, if_false]
    exact ih (by simp only [List.length_cons] at h; omega)

/-- Without newlines the greedy `.+$` capture is the whole tail. -/
lemma coreTail_of_noNewline {l : List Char} (h : noNewline l = true) :
    coreTail l = l := by
  rw [coreTail]
  cases hr : l.reverse with
  | nil =>
    rw [List.reverse_eq_nil_iff] at hr
    subst hr
    rfl
  | cons c rest =>
    have hcl : c ∈ l := by
      rw [← List.mem_reverse, hr]
      exact List.mem_cons_self c rest
    have hc : ¬ (c = '\n') := by
      rw [noNewline, List.all_eq_true] at h
      have := h c hcl
      simpa using this
    show (if c = '\n' then rest.reverse else l) = l
    rw [if_neg hc]

/-- Newline-freeness passes to any member-wise sublist (tail or drop). -/
lemma noNewline_of_subset {l₁ l₂ : List Char}
    (hs : ∀ c ∈ l₁, c ∈ l₂) (h : noNewline l₂ = true) :
    noNewline l₁ = true := by
  rw [noNewline, List.all_eq_true] at h ⊢
  exact fun c hc => h c (hs c hc)

/-- On a newline-free subject, the regex search `reported by (.+)$`
returns exactly the remainder after the first occurrence of the literal
substring, provided that remainder is non-empty; it fails when the literal
is absent or ends the string. -/
lemma reSearch_eq_spec_of_noNewline :
    ∀ {l : List Char}, noNewline l = true →
      reSearch l = (remainderAfterLit l).bind
        (fun r => if r = [] then none else some r) := by
  intro l
  induction l with
  | nil => intro _; rfl
  | cons c cs ih =>
    intro h
    have hcs : noNewline cs = true :=
      noNewline_of_subset (fun x hx => List.mem_cons_of_mem c hx) h
    cases hlit : litStarts reportedByLit (c :: cs) with
    | false =>
      rw [reSearch, hlit, remainderAfterLit, hlit]
      simp only [Bool.false_and, if_false]
      exact ih hcs
    | true =>
      have htail : noNewline ((c :: cs).drop 12) = true :=
        noNewline_of_subset (fun x hx => List.mem_of_mem_drop hx) h
      have hcore : coreTail ((c :: cs).drop 12) = (c :: cs).drop 12 :=
        coreTail_of_noNewline htail
      rw [reSearch, hlit, remainderAfterLit, hlit, tailMatches]
      cases hdrop : (c :: cs).drop 12 with
      | nil =>
        show reSearch cs = none
        apply reSearch_none_short
        have hlen : (c :: cs).length ≤ 12 := List.drop_eq_nil_iff.mp hdrop
        simp only [List.length_cons] at hlen ⊢
        omega
      | cons r rs =>
        have htail2 : noNewline (r :: rs) = true := hdrop ▸ htail
        have hcore2 : coreTail (r :: rs) = r :: rs :=
          coreTail_of_noNewline htail2
        rw [hcore2, htail2]
        rfl

/-- C1 counterexample: in the subject "Issue reported by " the literal
substring "reported by " is present and the remainder after it, trimmed,
is the empty string, yet extraction yields "Unknown" (the claim predicts
the trimmed remainder, i.e. "").  Likewise, in "x reported by a\nb" the
substring is present with non-empty trimmed remainder "a\nb", yet the
regex (whose `.` does not cross a newline) fails and extraction again
yields "Unknown". -/
theorem C1_counterexample :
    hasLit "Issue reported by " = true ∧
    remainderAfterLit "Issue reported by ".data = some [] ∧
    pyStrip "" = "" ∧
    extract_reporter (some "Issue reported by ") = "Unknown" ∧
    ("Unknown" : String) ≠ "" ∧
    remainderAfterLit "x reported by a\nb".data = some "a\nb".data ∧
    pyStrip "a\nb" = "a\nb" ∧
    extract_reporter (some "x reported by a\nb") = "Unknown" ∧
    ("Unknown" : String) ≠ "a\nb" :=
  ⟨by decide, by decide, rfl, by decide, by decide, by decide, by decide,
   by decide, by decide⟩

/-- C1 (amended): for every newline-free subject, extraction searches
case-sensitively for the literal substring "reported by "; when it is
present and followed by at least one character it returns the remainder
after its first occurrence trimmed of surrounding whitespace; when it is
absent — or present but followed by nothing — it returns "Unknown"; a
missing subject also gives "Unknown". -/
theorem C1_reporter_extraction (s : String)
    (hnl : noNewline s.data = true) :
    (remainderAfterLit s.data = none →
      extract_reporter (some s) = "Unknown") ∧
    (remainderAfterLit s.data = some [] →
      extract_reporter (some s) = "Unknown") ∧
    (∀ r rs, remainderAfterLit s.data = some (r :: rs) →
      extract_reporter (some s) = pyStrip ⟨r :: rs⟩) ∧
    extract_reporter none = "Unknown" := by
  have key := reSearch_eq_spec_of_noNewline hnl
  refine ⟨?_, ?_, ?_, rfl⟩
  · intro hr
    rw [hr] at key
    rw [extract_reporter, key]
    rfl
  · intro hr
    rw [hr] at key
    simp only [Option.some_bind, if_pos rfl] at key
    rw [extract_reporter, key]
    rfl
  · intro r rs hr
    rw [hr] at key
    simp only [Option.some_bind] at key
    rw [if_neg (by simp)] at key
    rw [extract_reporter, key]

/-- C1 witness: the spec's own example, with a non-empty remainder after
the literal. -/
theorem C1_reporter_extraction_witness :
    extract_reporter (some "Issue X reported by Jane Doe") = "Jane Doe" := by
  have h := (C1_reporter_extraction "Issue X reported by Jane Doe"
    (by decide)).2.2.1 'J' "ane Doe".data (by decide)
  rw [h]
  decide

/-- C10: a subject in which "reported by " is followed only by whitespace
(here three spaces): the regex still matches, `.strip()` erases the
capture, and extraction returns the empty string, not "Unknown". -/
theorem C10_whitespace_reporter_empty :
    remainderAfterLit "Spill reported by   ".data = some "  ".data ∧
    "  ".data.all pyIsSpace = true ∧
    extract_reporter (some "Spill reported by   ") = "" ∧
    ("" : String) ≠ "Unknown" :=
  ⟨by decide, by decide, by decide, by decide⟩

/-- C8 witness: prepending a raw row with an unparsable timestamp to the
sample upload leaves the loaded table unchanged, and the loaded row
`rowJane` carries a parsed timestamp of some raw row. -/
theorem C8_timestamp_invariant_witness :
    load_data
      ({ mainCategory := some "Veg", product := "Kale", reportTime := none,
         facility := "FC3", picker := "P5",
         ticketSubject := some "bad" } :: sampleRaws) =
      load_data sampleRaws ∧
    ∃ w ∈ sampleRaws, w.reportTime = some rowJane.reportTime :=
  ⟨(C8_timestamp_invariant sampleRaws 0 9 ["Fruit"]).2.1 _ rfl,
   (C8_timestamp_invariant sampleRaws 0 9 ["Fruit"]).2.2.1 rowJane (by decide)⟩
